import Mathlib

/-!
# Bot_help/webapp/script.js

A shallow embedding of the mini-app front end.  The page is a list of elements in
document order; an element reference is its position in that list.  Every function of
script.js becomes a function from the page to an `Outcome`: the page afterwards, the calls
made on the host bridge `tg`, and whether an uncaught `TypeError` ended the function
(writes made before the throw stay in the page, as in the browser).

What the embedding fixes:

* the markup is not part of script.js, so the page is a parameter, and the theorems name
  the elements they need;
* the element tree is flattened: `innerText` is a text property, so the title element is
  taken to have no element inside it;
* `document.getElementById` of an absent id is `null`, and reading a property of `null`
  throws; the calls on `tg` are recorded, not executed, and do not fail;
* the callback given to `tg.showConfirm` is recorded as data and run by `Callback.invoke`;
* strings are sequences of code points, Numbers are binary64 values over integers.
-/

namespace BotHelp

/-! ## The page -/

/-- An element, reduced to the properties script.js reads or writes: `id`, `classList`,
`innerText`, `value` and `style.display`. -/
structure Element where
  id : String
  classList : List String
  innerText : String
  value : String
  display : String
deriving DecidableEq, Repr

/-- The document: its elements in document order. A reference to an element is its index. -/
abbrev Dom := List Element

/-- Apply `f` to the element referenced by `i` (property writes go through this). -/
def Dom.update (d : Dom) (i : Nat) (f : Element → Element) : Dom :=
  match d[i]? with
  | some e => d.set i (f e)
  | none => d

/-- The method `DOMTokenList.add`: append the token unless it is already present. -/
def tokenAdd (l : List String) (c : String) : List String :=
  if c ∈ l then l else l ++ [c]

/-- The method `DOMTokenList.remove`: drop the token. -/
def tokenRemove (l : List String) (c : String) : List String :=
  l.filter (fun t => decide (t ≠ c))

/-- The call `el.classList.add(c)`. -/
def classListAdd (d : Dom) (i : Nat) (c : String) : Dom :=
  d.update i (fun e => { e with classList := tokenAdd e.classList c })

/-- The call `el.classList.remove(c)`. -/
def classListRemove (d : Dom) (i : Nat) (c : String) : Dom :=
  d.update i (fun e => { e with classList := tokenRemove e.classList c })

/-- The assignment `el.innerText = t`. -/
def setInnerText (d : Dom) (i : Nat) (t : String) : Dom :=
  d.update i (fun e => { e with innerText := t })

/-- The assignment `el.value = v`. -/
def setValue (d : Dom) (i : Nat) (v : String) : Dom :=
  d.update i (fun e => { e with value := v })

/-- The assignment `el.style.display = v`. -/
def setDisplay (d : Dom) (i : Nat) (v : String) : Dom :=
  d.update i (fun e => { e with display := v })

/-- The first element in document order whose id is `x`. -/
def firstWithId : Dom → String → Option Nat
  | [], _ => none
  | e :: rest, x => if e.id = x then some 0 else (firstWithId rest x).map (· + 1)

/-- The call `document.getElementById(x)`: the first element in document order whose id is
`x`, `none` standing for `null`.  An element without an id has the id `""`, which no
lookup matches. -/
def getElementById (d : Dom) (x : String) : Option Nat :=
  if x = "" then none else firstWithId d x

/-- Whether the element referenced by `i` exists and carries the class `c`. -/
def hasClass (d : Dom) (i : Nat) (c : String) : Bool :=
  match d[i]? with
  | some e => decide (c ∈ e.classList)
  | none => false

/-- The call `document.querySelectorAll('.' + c)`: the elements carrying class `c`, in document
order. -/
def querySelectorAll (d : Dom) (c : String) : List Nat :=
  (List.range d.length).filter (fun i => hasClass d i c)

/-- The loop `nodes.forEach(el => el.classList.remove(c))`. -/
def forEachRemove (d : Dom) (nodes : List Nat) (c : String) : Dom :=
  nodes.foldl (fun acc i => classListRemove acc i c) d

/-- The elements of class `c` that also carry the mark `m`, in document order. -/
def marked (d : Dom) (c m : String) : List Nat :=
  (querySelectorAll d c).filter (fun i => hasClass d i m)

/-- The property `g` of the element `document.getElementById(x)`; `none` when the lookup
gives `null` (reading a property of `null` is a `TypeError`). -/
def readById (d : Dom) (x : String) (g : Element → String) : Option String :=
  match getElementById d x with
  | some i => (d[i]?).map g
  | none => none

/-- The expression `document.getElementById(x).innerText`. -/
def innerTextOf (d : Dom) (x : String) : Option String := readById d x Element.innerText

/-- The expression `document.getElementById(x).value`. -/
def valueOf (d : Dom) (x : String) : Option String := readById d x Element.value

/-- The expression `document.getElementById(x).style.display`. -/
def displayOf (d : Dom) (x : String) : Option String := readById d x Element.display

/-! ## The host bridge -/

/-- The arrow function `sendAction` hands to `tg.showConfirm`, as data: it closes over
`actionName` only. -/
inductive Callback where
  | confirmSend (actionName : String)
deriving DecidableEq, Repr

/-- A call made on the host bridge `tg`. -/
inductive HostCall where
  | showAlert (message : String)
  | showConfirm (message : String) (callback : Callback)
  | sendData (json : String)
deriving DecidableEq, Repr

/-- What a function of script.js leaves behind. -/
structure Outcome where
  dom : Dom
  calls : List HostCall
  threw : Bool
deriving DecidableEq, Repr

/-! ## Tab switching (script.js lines 14-30) -/

/-- One line `if (tabId === name) navItems[k].classList.add('active');`. `none` is the
`TypeError` raised when `navItems[k]` is `undefined`. -/
def navLine (d : Dom) (navItems : List Nat) (tabId name : String) (k : Nat) : Option Dom :=
  if tabId = name then
    match navItems[k]? with
    | some i => some (classListAdd d i "active")
    | none => none
  else some d

/-- The function `switchTab(tabId, title)`. -/
def switchTab (d : Dom) (tabId title : String) : Outcome :=
  match getElementById d "page-title" with
  | none => ⟨d, [], true⟩
  | some t =>
    let d1 := setInnerText d t title
    let d2 := forEachRemove d1 (querySelectorAll d1 "tab-content") "active"
    match getElementById d2 ("tab-" ++ tabId) with
    | none => ⟨d2, [], true⟩
    | some p =>
      let d3 := classListAdd d2 p "active"
      let d4 := forEachRemove d3 (querySelectorAll d3 "nav-item") "active"
      let navItems := querySelectorAll d4 "nav-item"
      match navLine d4 navItems tabId "finance" 0 with
      | none => ⟨d4, [], true⟩
      | some d5 =>
        match navLine d5 navItems tabId "tasks" 1 with
        | none => ⟨d5, [], true⟩
        | some d6 =>
          match navLine d6 navItems tabId "habits" 2 with
          | none => ⟨d6, [], true⟩
          | some d7 =>
            match navLine d7 navItems tabId "settings" 3 with
            | none => ⟨d7, [], true⟩
            | some d8 => ⟨d8, [], false⟩

/-! ## Category selection (script.js lines 33-47) -/

/-- The function `selectCategory(el, category)`; `el` is an element reference, and a
reference to no element stands for `null`. -/
def selectCategory (d : Dom) (el : Nat) (category : String) : Outcome :=
  let d1 := forEachRemove d (querySelectorAll d "tag") "selected"
  match d1[el]? with
  | none => ⟨d1, [], true⟩
  | some _ =>
    let d2 := classListAdd d1 el "selected"
    match getElementById d2 "categoryInput" with
    | none => ⟨d2, [], true⟩
    | some c =>
      let d3 := setValue d2 c category
      match getElementById d3 "custom-cat-group" with
      | none => ⟨d3, [], true⟩
      | some g => ⟨setDisplay d3 g "none", [], false⟩

/-- The function `toggleCustomCategory()`. -/
def toggleCustomCategory (d : Dom) : Outcome :=
  let d1 := forEachRemove d (querySelectorAll d "tag") "selected"
  match getElementById d1 "add-cat-btn" with
  | none => ⟨d1, [], true⟩
  | some b =>
    let d2 := classListAdd d1 b "selected"
    match getElementById d2 "categoryInput" with
    | none => ⟨d2, [], true⟩
    | some c =>
      let d3 := setValue d2 c "__custom__"
      match getElementById d3 "custom-cat-group" with
      | none => ⟨d3, [], true⟩
      | some g => ⟨setDisplay d3 g "flex", [], false⟩

/-! ## Strings -/

/-- The code points of `WhiteSpace` and `LineTerminator`, which `String.prototype.trim`
and `parseFloat` strip. -/
def isWhiteSpace (c : Char) : Bool :=
  let n := c.toNat
  n = 0x09 || n = 0x0A || n = 0x0B || n = 0x0C || n = 0x0D || n = 0x20 || n = 0xA0 ||
  n = 0x1680 || (0x2000 ≤ n && n ≤ 0x200A) || n = 0x2028 || n = 0x2029 || n = 0x202F ||
  n = 0x205F || n = 0x3000 || n = 0xFEFF

/-- The call `s.trim()`. -/
def trim (s : String) : String :=
  ⟨((s.data.dropWhile isWhiteSpace).reverse.dropWhile isWhiteSpace).reverse⟩

/-! ## Numbers

The built-ins `parseFloat` and `Number::toString` of ECMAScript, over exact integer
arithmetic: a Number is a binary64 value, a decimal literal is rounded to the nearest one
(ties to even), and a finite value is written with the fewest digits that round back to
it. -/

/-- A Number value: `finite neg m e` is `±m · 2^e` with `m < 2^53`, in the binary64
normal form (`2^52 ≤ m` unless `e = -1074`). -/
inductive JsNumber where
  | nan
  | infinity (negative : Bool)
  | finite (negative : Bool) (significand : Nat) (exponent : Int)
deriving DecidableEq, Repr

/-- The rational `num / den` times `2^(-e)`, as a numerator and a denominator. -/
def scaleBinary (num den : Nat) (e : Int) : Nat × Nat :=
  match e with
  | Int.ofNat k => (num, den * 2 ^ k)
  | Int.negSucc k => (num * 2 ^ (k + 1), den)

/-- The rational `num / den` times `10^e`, as a numerator and a denominator. -/
def scaleDecimal (num den : Nat) (e : Int) : Nat × Nat :=
  match e with
  | Int.ofNat k => (num * 10 ^ k, den)
  | Int.negSucc k => (num, den * 10 ^ (k + 1))

/-- Round-to-nearest, ties-to-even, of `a / b` to an integer. -/
def roundHalfEven (a b : Nat) : Nat :=
  let q := a / b
  let r := a % b
  if 2 * r < b then q
  else if b < 2 * r then q + 1
  else if q % 2 = 0 then q else q + 1

/-- The number of binary digits of a natural number (`fuel` bounds their count). -/
def bitLength : Nat → Nat → Nat
  | 0, _ => 0
  | fuel + 1, n => if n = 0 then 0 else bitLength fuel (n / 2) + 1

/-- The binary64 value nearest to the positive rational `num / den` (`den ≠ 0`), ties to
even: the significand and the exponent, or `none` when the result is infinite. -/
def roundBinary64 (num den : Nat) : Option (Nat × Int) :=
  if num = 0 then some (0, -1074)
  else
    let e0 : Int := (bitLength num num : Int) - (bitLength den den : Int)
    let lo := scaleBinary num den e0
    let e : Int := if lo.2 ≤ lo.1 then e0 else e0 - 1
    let ex : Int := max (e - 52) (-1074)
    let ab := scaleBinary num den ex
    let m := roundHalfEven ab.1 ab.2
    let res : Nat × Int := if m = 2 ^ 53 then (2 ^ 52, ex + 1) else (m, ex)
    if 971 < res.2 then none else some res

/-- The Number value for the sign and the positive rational `num / den`. -/
def toNumber (negative : Bool) (num den : Nat) : JsNumber :=
  match roundBinary64 num den with
  | some (m, e) => JsNumber.finite negative m e
  | none => JsNumber.infinity negative

/-- The value of a decimal digit. -/
def digitValue (c : Char) : Option Nat :=
  if 48 ≤ c.toNat ∧ c.toNat ≤ 57 then some (c.toNat - 48) else none

/-- The longest run of decimal digits at the start of the text, and the rest. -/
def takeDigits : List Char → List Nat × List Char
  | [] => ([], [])
  | c :: cs =>
    match digitValue c with
    | some v => let r := takeDigits cs; (v :: r.1, r.2)
    | none => ([], c :: cs)

/-- The number written by a list of decimal digits. -/
def digitsValue (ds : List Nat) : Nat :=
  ds.foldl (fun acc v => 10 * acc + v) 0

/-- The `ExponentPart` at the start of the text, when there is one: `e` or `E`, an optional
sign and at least one digit. -/
def exponentPart : List Char → Int
  | c :: cs =>
    if c = 'e' ∨ c = 'E' then
      match cs with
      | '+' :: ds => if (takeDigits ds).1 = [] then 0 else (digitsValue (takeDigits ds).1 : Int)
      | '-' :: ds => if (takeDigits ds).1 = [] then 0 else - (digitsValue (takeDigits ds).1 : Int)
      | ds => (digitsValue (takeDigits ds).1 : Int)
    else 0
  | [] => 0

/-- The longest `StrUnsignedDecimalLiteral` at the start of the text, as a Number of the
given sign; `NaN` when there is none. -/
def unsignedLiteral (negative : Bool) (l : List Char) : JsNumber :=
  if "Infinity".data <+: l then JsNumber.infinity negative
  else
    let ip := takeDigits l
    match ip.2 with
    | '.' :: afterDot =>
      let fp := takeDigits afterDot
      if ip.1 = [] ∧ fp.1 = [] then JsNumber.nan
      else
        let mv := scaleDecimal (digitsValue (ip.1 ++ fp.1)) 1 (exponentPart fp.2 - fp.1.length)
        toNumber negative mv.1 mv.2
    | rest =>
      if ip.1 = [] then JsNumber.nan
      else
        let mv := scaleDecimal (digitsValue ip.1) 1 (exponentPart rest)
        toNumber negative mv.1 mv.2

/-- The built-in `parseFloat` on a string. -/
def parseFloat (s : String) : JsNumber :=
  match s.data.dropWhile isWhiteSpace with
  | '+' :: l => unsignedLiteral false l
  | '-' :: l => unsignedLiteral true l
  | l => unsignedLiteral false l

/-- The decimal digits of a natural number, most significant first (`fuel` bounds their
count). -/
def decimalDigits : Nat → Nat → List Char
  | 0, _ => []
  | fuel + 1, n =>
    if n < 10 then [Char.ofNat (48 + n)]
    else decimalDigits fuel (n / 10) ++ [Char.ofNat (48 + n % 10)]

/-- The decimal numeral of a natural number. -/
def natText (n : Nat) : List Char := decimalDigits (n + 1) n

/-- The `n` with `10^(n-1) ≤ num/den < 10^n`, searched downwards from `n = start`
for `num / den < 10^start`. -/
def decimalPosition : Nat → Nat → Nat → Int → Int
  | 0, _, _, n => n
  | fuel + 1, num, den, n =>
    let t := scaleDecimal num den (1 - n)
    if t.2 ≤ t.1 then n else decimalPosition fuel num den (n - 1)

/-- The candidates of `k` digits for the positive binary64 value `m · 2^e`: the pair `(s, n)`
such that `s · 10^(n-k)` rounds to the value, the closest one when both neighbours do. -/
def digitsOfLength (m : Nat) (e n0 : Int) (k : Nat) : Option (Nat × Int) :=
  let x := scaleBinary m 1 (-e)
  let t := scaleDecimal x.1 x.2 ((k : Int) - n0)
  let lo := t.1 / t.2
  let r := t.1 % t.2
  let norm : Nat → Nat × Int := fun s => if s = 10 ^ k then (10 ^ (k - 1), n0 + 1) else (s, n0)
  if r = 0 then some (norm lo)
  else
    let vlo := scaleDecimal lo 1 (n0 - (k : Int))
    let vhi := scaleDecimal (lo + 1) 1 (n0 - (k : Int))
    let okLo := decide (roundBinary64 vlo.1 vlo.2 = some (m, e))
    let okHi := decide (roundBinary64 vhi.1 vhi.2 = some (m, e))
    if okLo && okHi then
      (if 2 * r < t.2 then some (norm lo)
       else if t.2 < 2 * r then some (norm (lo + 1))
       else if lo % 2 = 0 then some (norm lo) else some (norm (lo + 1)))
    else if okLo then some (norm lo)
    else if okHi then some (norm (lo + 1))
    else none

/-- The shortest digits `(s, n, k)` of `Number::toString` for the positive value `m · 2^e`. -/
def shortestDigits (m : Nat) (e : Int) : Nat × Int × Nat :=
  let x := scaleBinary m 1 (-e)
  let n0 := decimalPosition 640 x.1 x.2 ((natText (x.1 / x.2)).length : Int)
  match (List.range 17).findSome? (fun j => (digitsOfLength m e n0 (j + 1)).map (fun sn => (sn.1, sn.2, j + 1))) with
  | some r => r
  | none => (0, 0, 1)

/-- The text of `Number::toString` (radix 10) for the digits `s` (`k` of them) and the
position `n`. -/
def layoutDigits (s : Nat) (n : Int) (k : Nat) : List Char :=
  let ds := natText s
  if -5 ≤ n ∧ n ≤ 21 then
    if (k : Int) ≤ n then ds ++ List.replicate (n.toNat - k) '0'
    else if 0 < n then ds.take n.toNat ++ '.' :: ds.drop n.toNat
    else '0' :: '.' :: (List.replicate (-n).toNat '0' ++ ds)
  else
    let ex := n - 1
    let sign := if ex < 0 then '-' else '+'
    if k = 1 then ds ++ 'e' :: sign :: natText ex.natAbs
    else ds.take 1 ++ '.' :: (ds.drop 1 ++ 'e' :: sign :: natText ex.natAbs)

/-- The abstract operation `Number::toString` with radix 10. -/
def numberToString : JsNumber → String
  | JsNumber.nan => "NaN"
  | JsNumber.infinity false => "Infinity"
  | JsNumber.infinity true => "-Infinity"
  | JsNumber.finite neg m e =>
    if m = 0 then "0"
    else
      let r := shortestDigits m e
      ⟨(if neg then ['-'] else []) ++ layoutDigits r.1 r.2.1 r.2.2⟩


/-! ## JSON.stringify -/

/-- A property value of the payloads script.js builds: a string or a Number. -/
inductive JsValue where
  | string (s : String)
  | number (n : JsNumber)
deriving DecidableEq, Repr

/-- A hexadecimal digit, lower case. -/
def hexDigit (n : Nat) : Char :=
  if n < 10 then Char.ofNat (48 + n) else Char.ofNat (87 + n)

/-- The quotation mark, U+0022. -/
def quoteMark : Char := '\x22'

/-- The reverse solidus, U+005C. -/
def backslash : Char := '\x5c'

/-- The escape of one code point in `QuoteJSONString`: the two-character escapes of
U+0008, U+0009, U+000A, U+000C, U+000D, U+0022 and U+005C, a `u00XX` escape for the other
code points below U+0020, the code point itself otherwise. -/
def quoteChar (c : Char) : List Char :=
  if c.toNat = 0x08 then [backslash, 'b']
  else if c.toNat = 0x09 then [backslash, 't']
  else if c.toNat = 0x0A then [backslash, 'n']
  else if c.toNat = 0x0C then [backslash, 'f']
  else if c.toNat = 0x0D then [backslash, 'r']
  else if c.toNat = 0x22 then [backslash, quoteMark]
  else if c.toNat = 0x5C then [backslash, backslash]
  else if c.toNat < 0x20 then
    [backslash, 'u', '0', '0', hexDigit (c.toNat / 16), hexDigit (c.toNat % 16)]
  else [c]

/-- The abstract operation `QuoteJSONString`. -/
def quoteJSONString (s : String) : String :=
  ⟨quoteMark :: ((s.data.map quoteChar).flatten ++ [quoteMark])⟩

/-- The text `JSON.stringify` gives a property value: a quoted string, the digits of a
finite Number, `null` for `NaN` and the infinities. -/
def serializeValue : JsValue → String
  | JsValue.string s => quoteJSONString s
  | JsValue.number (JsNumber.finite neg m e) => numberToString (JsNumber.finite neg m e)
  | JsValue.number _ => "null"

/-- The built-in `JSON.stringify` on an object literal, given as its properties in order. -/
def stringify (data : List (String × JsValue)) : String :=
  "\x7b" ++ ",".intercalate (data.map (fun kv => quoteJSONString kv.1 ++ ":" ++ serializeValue kv.2))
    ++ "\x7d"

/-! ## Actions (script.js lines 50-126) -/

/-- The helper `sendData(data)`: one call `tg.sendData(JSON.stringify(data))`. -/
def sendData (d : Dom) (data : List (String × JsValue)) : Outcome :=
  ⟨d, [HostCall.sendData (stringify data)], false⟩

/-- Lines 63-72 of `sendExpense`, with the category resolved. -/
def sendExpenseChecked (d : Dom) (amount category : String) : Outcome :=
  if amount = "" ∨ category = "" then
    ⟨d, [HostCall.showAlert "Введите сумму и выберите категорию!"], false⟩
  else
    sendData d [("action", JsValue.string "add_expense"),
                ("amount", JsValue.number (parseFloat amount)),
                ("category", JsValue.string category)]

/-- The function `sendExpense()`. -/
def sendExpense (d : Dom) : Outcome :=
  match valueOf d "amountInput" with
  | none => ⟨d, [], true⟩
  | some amount =>
    match valueOf d "categoryInput" with
    | none => ⟨d, [], true⟩
    | some category =>
      if category = "__custom__" then
        match valueOf d "customCategoryInput" with
        | none => ⟨d, [], true⟩
        | some raw =>
          let customText := trim raw
          if customText = "" then
            ⟨d, [HostCall.showAlert "Введите название категории!"], false⟩
          else sendExpenseChecked d amount customText
      else sendExpenseChecked d amount category

/-- The function `sendTask()`. -/
def sendTask (d : Dom) : Outcome :=
  match valueOf d "taskInput" with
  | none => ⟨d, [], true⟩
  | some raw =>
    let text := trim raw
    if text = "" then ⟨d, [], false⟩
    else sendData d [("action", JsValue.string "add_task"), ("text", JsValue.string text)]

/-- The function `sendHabit()`. -/
def sendHabit (d : Dom) : Outcome :=
  match valueOf d "habitInput" with
  | none => ⟨d, [], true⟩
  | some raw =>
    let text := trim raw
    match valueOf d "habitTimeInput" with
    | none => ⟨d, [], true⟩
    | some time =>
      if text = "" then ⟨d, [], false⟩
      else sendData d [("action", JsValue.string "add_habit"), ("text", JsValue.string text),
                       ("time", JsValue.string time)]

/-- The function `saveCity()`. -/
def saveCity (d : Dom) : Outcome :=
  match valueOf d "cityInput" with
  | none => ⟨d, [], true⟩
  | some raw =>
    let city := trim raw
    if city = "" then ⟨d, [], false⟩
    else sendData d [("action", JsValue.string "update_city"), ("city", JsValue.string city)]

/-- The function `sendAction(actionName)`. -/
def sendAction (d : Dom) (actionName : String) : Outcome :=
  if actionName = "stop_userbot" then
    ⟨d, [HostCall.showConfirm "Вы точно хотите отключить UserBot?"
          (Callback.confirmSend actionName)], false⟩
  else sendData d [("action", JsValue.string actionName)]

/-- The host invoking a callback it was given, with the user's answer. -/
def Callback.invoke (d : Dom) : Callback → Bool → Outcome
  | Callback.confirmSend actionName, confirmed =>
    if confirmed then sendData d [("action", JsValue.string actionName)] else ⟨d, [], false⟩


/-! ## Vocabulary of the specification -/

/-- The four tab identifiers. -/
def tabIds : List String := ["finance", "tasks", "habits", "settings"]

/-- The position mapping of the specification: finance→0, tasks→1, habits→2, settings→3. -/
def navPosition (tabId : String) : Nat :=
  if tabId = "finance" then 0
  else if tabId = "tasks" then 1
  else if tabId = "habits" then 2
  else 3

/-- Whether the page has a panel for the tab: the element `tab-<tabId>` exists and is a
`.tab-content` element. -/
def isPanel (d : Dom) (tabId : String) : Bool :=
  match getElementById d ("tab-" ++ tabId) with
  | some p => hasClass d p "tab-content"
  | none => false

/-- A page with the title element, the four panels and four nav items, panels and nav
items being different elements. -/
def TabPage (d : Dom) : Prop :=
  (getElementById d "page-title").isSome = true ∧
  (∀ t ∈ tabIds, isPanel d t = true) ∧
  (querySelectorAll d "nav-item").length = 4 ∧
  (∀ i ∈ querySelectorAll d "nav-item", hasClass d i "tab-content" = false)

instance (d : Dom) : Decidable (TabPage d) := by
  unfold TabPage; infer_instance

/-- A page with the category controls: the hidden input `categoryInput`, the group
`custom-cat-group`, and the control `add-cat-btn`. -/
def CategoryPage (d : Dom) : Prop :=
  (getElementById d "categoryInput").isSome = true ∧
  (getElementById d "custom-cat-group").isSome = true ∧
  (getElementById d "add-cat-btn").isSome = true

instance (d : Dom) : Decidable (CategoryPage d) := by
  unfold CategoryPage; infer_instance

/-- A user action on the category tags. -/
inductive CategoryCall where
  | select (el : Nat) (category : String)
  | toggleCustom
deriving DecidableEq, Repr

/-- Run one category call. -/
def CategoryCall.run (d : Dom) : CategoryCall → Outcome
  | CategoryCall.select el category => selectCategory d el category
  | CategoryCall.toggleCustom => toggleCustomCategory d

/-- The element a category call marks: `el`, or the control `add-cat-btn`. -/
def CategoryCall.target (d : Dom) : CategoryCall → Option Nat
  | CategoryCall.select el _ => some el
  | CategoryCall.toggleCustom => getElementById d "add-cat-btn"

/-- Whether the call addresses a tag element of the page. -/
def CategoryCall.onTag (d : Dom) (c : CategoryCall) : Bool :=
  match c.target d with
  | some i => hasClass d i "tag"
  | none => false

/-- The page after a sequence of category calls, each an event handler of its own. -/
def runCalls (d : Dom) (cs : List CategoryCall) : Dom :=
  cs.foldl (fun acc c => (c.run acc).dom) d

/-- A bare element. -/
def blank (id : String) (classList : List String) : Element :=
  ⟨id, classList, "", "", ""⟩

/-- A page with every element script.js looks up: the title, four panels, four nav items,
three preset tags and the add-category control, and the form inputs. -/
def samplePage : Dom :=
  [ blank "page-title" [],
    blank "tab-finance" ["tab-content", "active"],
    blank "tab-tasks" ["tab-content"],
    blank "tab-habits" ["tab-content"],
    blank "tab-settings" ["tab-content"],
    blank "" ["nav-item", "active"],
    blank "" ["nav-item"],
    blank "" ["nav-item"],
    blank "" ["nav-item"],
    blank "" ["tag"],
    blank "" ["tag"],
    blank "" ["tag"],
    blank "add-cat-btn" ["tag"],
    blank "categoryInput" [],
    blank "custom-cat-group" [],
    blank "customCategoryInput" [],
    blank "amountInput" [],
    blank "taskInput" [],
    blank "habitInput" [],
    blank "habitTimeInput" [],
    blank "cityInput" [] ]

/-- A page with the form filled in: the values of the inputs, by id. -/
def fillIn (d : Dom) (values : List (String × String)) : Dom :=
  values.foldl (fun acc kv =>
    match getElementById acc kv.1 with
    | some i => setValue acc i kv.2
    | none => acc) d


/-- The page after lines 16-23 of `switchTab` when both lookups succeed: title written,
panels cleared, panel `p` activated, nav items cleared. -/
def switchTabCleared (d : Dom) (t p : Nat) (title : String) : Dom :=
  let d1 := setInnerText d t title
  let d2 := forEachRemove d1 (querySelectorAll d1 "tab-content") "active"
  let d3 := classListAdd d2 p "active"
  forEachRemove d3 (querySelectorAll d3 "nav-item") "active"

/-- The page after lines 16-19 of `switchTab`: title written, panels cleared. -/
def switchTabTitled (d : Dom) (t : Nat) (title : String) : Dom :=
  let d1 := setInnerText d t title
  forEachRemove d1 (querySelectorAll d1 "tab-content") "active"

/-- Whether a Number is finite. -/
def JsNumber.isFinite : JsNumber → Bool
  | JsNumber.finite _ _ _ => true
  | _ => false

/-- The resolved category of the specification: the hidden category value, or the trimmed
custom text when the hidden value is the sentinel. -/
def resolvedCategory (category custom : String) : String :=
  if category = "__custom__" then trim custom else category

/-- The payload the specification states for an expense, with the amount a number: the
digits of the parsed value of the amount text. -/
def expensePayloadStated (amount category : String) : String :=
  "\x7b\"action\":\"add_expense\",\"amount\":" ++ numberToString (parseFloat amount) ++
    ",\"category\":" ++ quoteJSONString category ++ "\x7d"

/-- The text of the amount in the payload of an expense: the digits of the parsed value when
it is finite, `null` otherwise. -/
def amountText (amount : String) : String :=
  if (parseFloat amount).isFinite = true then numberToString (parseFloat amount) else "null"

/-- The page after the first two lines of `selectCategory` and `toggleCustomCategory`:
tags cleared, element `i` marked selected. -/
def categoryMarked (d : Dom) (i : Nat) : Dom :=
  classListAdd (forEachRemove d (querySelectorAll d "tag") "selected") i "selected"

/-! ## Lemmas on the page -/

theorem update_getElem? (d : Dom) (i j : Nat) (f : Element → Element) :
    (d.update i f)[j]? = if j = i then (d[j]?).map f else d[j]? := by
  unfold Dom.update
  cases h : d[i]? with
  | none =>
    by_cases hj : j = i
    · subst hj; simp [h]
    · simp [hj]
  | some e =>
    by_cases hj : j = i
    · subst hj
      have hlt : j < d.length := by
        rcases List.getElem?_eq_some.mp h with ⟨hl, _⟩
        exact hl
      simp [h, List.getElem?_set, hlt]
    · have hne : i ≠ j := fun h => hj h.symm
      simp [hj, List.getElem?_set_ne hne]

theorem getElem?_of_lt (d : Dom) (i : Nat) (h : i < d.length) : ∃ e, d[i]? = some e :=
  ⟨d[i], List.getElem?_eq_getElem h⟩

theorem update_length (d : Dom) (i : Nat) (f : Element → Element) :
    (d.update i f).length = d.length := by
  unfold Dom.update
  cases d[i]? <;> simp

theorem update_ids (d : Dom) (i : Nat) (f : Element → Element) (hf : ∀ e, (f e).id = e.id) :
    (d.update i f).map Element.id = d.map Element.id := by
  apply List.ext_getElem?
  intro j
  simp only [List.getElem?_map, update_getElem?]
  by_cases hj : j = i
  · simp only [hj, if_true]
    cases d[i]? <;> simp [hf]
  · simp [hj]

theorem firstWithId_congr : ∀ (d d2 : Dom) (x : String),
    d.map Element.id = d2.map Element.id → firstWithId d x = firstWithId d2 x
  | [], [], _, _ => rfl
  | [], _ :: _, _, h => by simp at h
  | _ :: _, [], _, h => by simp at h
  | e :: r, e2 :: r2, x, h => by
    simp only [List.map_cons, List.cons.injEq] at h
    simp only [firstWithId, h.1, firstWithId_congr r r2 x h.2]

theorem firstWithId_lt : ∀ (d : Dom) (x : String) (i : Nat),
    firstWithId d x = some i → i < d.length
  | [], _, _, h => by simp [firstWithId] at h
  | e :: r, x, i, h => by
    simp only [firstWithId] at h
    by_cases he : e.id = x
    · simp only [he, if_true, Option.some.injEq] at h
      subst h; simp
    · simp only [he, if_false, Option.map_eq_some'] at h
      rcases h with ⟨k, hk, rfl⟩
      have := firstWithId_lt r x k hk
      simp; omega

theorem getElementById_congr (d d2 : Dom) (x : String)
    (h : d.map Element.id = d2.map Element.id) : getElementById d x = getElementById d2 x := by
  unfold getElementById
  rw [firstWithId_congr d d2 x h]

theorem getElementById_lt (d : Dom) (x : String) (i : Nat)
    (h : getElementById d x = some i) : i < d.length := by
  unfold getElementById at h
  by_cases hx : x = ""
  · simp [hx] at h
  · simp only [hx, if_false] at h
    exact firstWithId_lt d x i h

theorem getElementById_update (d : Dom) (i : Nat) (f : Element → Element) (x : String)
    (hf : ∀ e, (f e).id = e.id) : getElementById (d.update i f) x = getElementById d x :=
  getElementById_congr _ _ x (update_ids d i f hf)

theorem forEachRemove_length (d : Dom) (nodes : List Nat) (c : String) :
    (forEachRemove d nodes c).length = d.length := by
  induction nodes generalizing d with
  | nil => rfl
  | cons i ns ih =>
    simp only [forEachRemove, List.foldl_cons] at ih ⊢
    rw [ih]; exact update_length _ _ _

theorem forEachRemove_ids (d : Dom) (nodes : List Nat) (c : String) :
    (forEachRemove d nodes c).map Element.id = d.map Element.id := by
  induction nodes generalizing d with
  | nil => rfl
  | cons i ns ih =>
    simp only [forEachRemove, List.foldl_cons] at ih ⊢
    rw [ih]; exact update_ids _ _ _ (fun _ => rfl)

theorem mem_tokenAdd (l : List String) (c x : String) : x ∈ tokenAdd l c ↔ x ∈ l ∨ x = c := by
  unfold tokenAdd
  by_cases h : c ∈ l
  · simp only [h, if_true]
    constructor
    · exact Or.inl
    · rintro (h1 | h1)
      · exact h1
      · subst h1; exact h
  · simp [h]

theorem mem_tokenRemove (l : List String) (c x : String) :
    x ∈ tokenRemove l c ↔ x ∈ l ∧ x ≠ c := by
  simp [tokenRemove]

theorem hasClass_lt (d : Dom) (i : Nat) (c : String) (h : hasClass d i c = true) :
    i < d.length := by
  unfold hasClass at h
  cases hi : d[i]? with
  | none => simp [hi] at h
  | some e => exact (List.getElem?_eq_some.mp hi).1

theorem hasClass_classListAdd (d : Dom) (i j : Nat) (a c : String) :
    hasClass (classListAdd d i a) j c = true ↔
      hasClass d j c = true ∨ (j = i ∧ c = a ∧ j < d.length) := by
  unfold hasClass classListAdd
  rw [update_getElem?]
  by_cases hj : j = i
  · subst hj
    cases h : d[j]? with
    | none =>
      have : ¬ j < d.length := by
        intro hl; simp [List.getElem?_eq_getElem hl] at h
      simp [this]
    | some e =>
      have : j < d.length := (List.getElem?_eq_some.mp h).1
      simp [mem_tokenAdd, this]
  · simp [hj]

theorem hasClass_classListRemove (d : Dom) (i j : Nat) (a c : String) :
    hasClass (classListRemove d i a) j c = true ↔
      hasClass d j c = true ∧ ¬ (j = i ∧ c = a) := by
  unfold hasClass classListRemove
  rw [update_getElem?]
  by_cases hj : j = i
  · subst hj
    cases h : d[j]? with
    | none => simp
    | some e => simp [mem_tokenRemove]
  · simp [hj]

theorem hasClass_forEachRemove (d : Dom) (nodes : List Nat) (j : Nat) (a c : String) :
    hasClass (forEachRemove d nodes a) j c = true ↔
      hasClass d j c = true ∧ ¬ (j ∈ nodes ∧ c = a) := by
  induction nodes generalizing d with
  | nil => simp [forEachRemove]
  | cons i ns ih =>
    have step : forEachRemove d (i :: ns) a = forEachRemove (classListRemove d i a) ns a := rfl
    rw [step, ih, hasClass_classListRemove]
    simp only [List.mem_cons]
    tauto

theorem hasClass_update_same (d : Dom) (i j : Nat) (f : Element → Element) (c : String)
    (hf : ∀ e, (f e).classList = e.classList) :
    hasClass (d.update i f) j c = hasClass d j c := by
  unfold hasClass
  rw [update_getElem?]
  by_cases hj : j = i
  · subst hj
    cases d[j]? <;> simp [hf]
  · simp [hj]

theorem mem_querySelectorAll (d : Dom) (c : String) (i : Nat) :
    i ∈ querySelectorAll d c ↔ hasClass d i c = true := by
  unfold querySelectorAll
  simp only [List.mem_filter, List.mem_range]
  constructor
  · exact fun h => h.2
  · exact fun h => ⟨hasClass_lt d i c h, h⟩

theorem querySelectorAll_congr (d d' : Dom) (c : String) (hl : d'.length = d.length)
    (h : ∀ i, hasClass d' i c = hasClass d i c) :
    querySelectorAll d' c = querySelectorAll d c := by
  unfold querySelectorAll
  rw [hl]
  exact List.filter_congr (fun i _ => h i)

theorem filter_range_singleton (q : Nat → Bool) (p : Nat) (h : ∀ j, q j = true ↔ j = p) :
    ∀ n, (List.range n).filter q = if p < n then [p] else []
  | 0 => by simp
  | n + 1 => by
    rw [List.range_succ, List.filter_append, filter_range_singleton q p h n]
    by_cases hn : n = p
    · subst hn
      have : q n = true := (h n).mpr rfl
      simp [this]
    · have hq : q n = false := by
        cases hqn : q n with
        | false => rfl
        | true => exact absurd ((h n).mp hqn) hn
      by_cases hlt : p < n
      · have : p < n + 1 := by omega
        simp [hq, hlt, this]
      · have : ¬ p < n + 1 := by omega
        simp [hq, hlt, this]

theorem marked_eq_singleton (d : Dom) (c m : String) (p : Nat)
    (h : ∀ j, (hasClass d j c = true ∧ hasClass d j m = true) ↔ j = p) :
    marked d c m = [p] := by
  have hp : p < d.length := hasClass_lt d p c ((h p).mpr rfl).1
  unfold marked querySelectorAll
  rw [List.filter_filter, filter_range_singleton _ p _ d.length]
  · simp [hp]
  · intro j
    rw [← h j]
    simp [and_comm]

theorem marked_eq_nil (d : Dom) (c m : String)
    (h : ∀ j, hasClass d j c = true → hasClass d j m = false) : marked d c m = [] := by
  unfold marked
  rw [List.filter_eq_nil_iff]
  intro j hj
  rw [mem_querySelectorAll] at hj
  simp [h j hj]

theorem mem_marked (d : Dom) (c m : String) (i : Nat) :
    i ∈ marked d c m ↔ hasClass d i c = true ∧ hasClass d i m = true := by
  unfold marked
  rw [List.mem_filter, mem_querySelectorAll]



theorem readById_update (d : Dom) (i : Nat) (f : Element → Element) (x : String)
    (g : Element → String) (hf : ∀ e, (f e).id = e.id) (hg : ∀ e, g (f e) = g e) :
    readById (d.update i f) x g = readById d x g := by
  unfold readById
  rw [getElementById_update d i f x hf]
  cases getElementById d x with
  | none => rfl
  | some k =>
    simp only [update_getElem?]
    by_cases hk : k = i
    · simp only [hk, if_true]
      cases d[i]? <;> simp [hg]
    · simp [hk]

theorem readById_update_hit (d : Dom) (i : Nat) (f : Element → Element) (x v : String)
    (g : Element → String) (hf : ∀ e, (f e).id = e.id) (hg : ∀ e, g (f e) = v)
    (hx : getElementById d x = some i) : readById (d.update i f) x g = some v := by
  unfold readById
  rw [getElementById_update d i f x hf, hx]
  have hlt := getElementById_lt d x i hx
  simp only [update_getElem?, if_true, List.getElem?_eq_getElem hlt, Option.map_some', hg]

theorem readById_forEachRemove (d : Dom) (nodes : List Nat) (c x : String)
    (g : Element → String)
    (hg : ∀ (e : Element) (l : List String), g { e with classList := l } = g e) :
    readById (forEachRemove d nodes c) x g = readById d x g := by
  induction nodes generalizing d with
  | nil => rfl
  | cons i ns ih =>
    have step : forEachRemove d (i :: ns) c = forEachRemove (classListRemove d i c) ns c := rfl
    rw [step, ih]
    exact readById_update d i _ x g (fun _ => rfl) (fun e => hg e _)

theorem readById_classListAdd (d : Dom) (i : Nat) (c x : String) (g : Element → String)
    (hg : ∀ (e : Element) (l : List String), g { e with classList := l } = g e) :
    readById (classListAdd d i c) x g = readById d x g :=
  readById_update d i _ x g (fun _ => rfl) (fun e => hg e _)

theorem isSome_getElementById (d : Dom) (x : String)
    (h : (getElementById d x).isSome = true) : ∃ i, getElementById d x = some i :=
  Option.isSome_iff_exists.mp h

/-! ## Lemmas on `switchTab` -/

theorem hasClass_setInnerText (d : Dom) (i j : Nat) (t c : String) :
    hasClass (setInnerText d i t) j c = hasClass d j c :=
  hasClass_update_same d i j _ c (fun _ => rfl)

theorem hasClass_setValue (d : Dom) (i j : Nat) (v c : String) :
    hasClass (setValue d i v) j c = hasClass d j c :=
  hasClass_update_same d i j _ c (fun _ => rfl)

theorem hasClass_setDisplay (d : Dom) (i j : Nat) (v c : String) :
    hasClass (setDisplay d i v) j c = hasClass d j c :=
  hasClass_update_same d i j _ c (fun _ => rfl)

theorem classListAdd_ids (d : Dom) (i : Nat) (c : String) :
    (classListAdd d i c).map Element.id = d.map Element.id :=
  update_ids d i _ (fun _ => rfl)

theorem classListAdd_length (d : Dom) (i : Nat) (c : String) :
    (classListAdd d i c).length = d.length :=
  update_length d i _

theorem setValue_ids (d : Dom) (i : Nat) (v : String) :
    (setValue d i v).map Element.id = d.map Element.id :=
  update_ids d i _ (fun _ => rfl)

theorem setDisplay_ids (d : Dom) (i : Nat) (v : String) :
    (setDisplay d i v).map Element.id = d.map Element.id :=
  update_ids d i _ (fun _ => rfl)

theorem hasClass_titled (d : Dom) (t j : Nat) (title x : String) :
    hasClass (switchTabTitled d t title) j x = true ↔
      hasClass d j x = true ∧ ¬ (hasClass d j "tab-content" = true ∧ x = "active") := by
  unfold switchTabTitled
  simp only [hasClass_forEachRemove, mem_querySelectorAll, hasClass_setInnerText]

theorem titled_length (d : Dom) (t : Nat) (title : String) :
    (switchTabTitled d t title).length = d.length := by
  unfold switchTabTitled
  simp only [forEachRemove_length, setInnerText, update_length]

theorem titled_ids (d : Dom) (t : Nat) (title : String) :
    (switchTabTitled d t title).map Element.id = d.map Element.id := by
  unfold switchTabTitled
  simp only [forEachRemove_ids, setInnerText]
  exact update_ids _ _ _ (fun _ => rfl)

theorem cleared_eq (d : Dom) (t p : Nat) (title : String) :
    switchTabCleared d t p title =
      forEachRemove (classListAdd (switchTabTitled d t title) p "active")
        (querySelectorAll (classListAdd (switchTabTitled d t title) p "active") "nav-item")
        "active" := rfl

theorem hasClass_cleared (d : Dom) (t p j : Nat) (title x : String) :
    hasClass (switchTabCleared d t p title) j x = true ↔
      ((hasClass d j x = true ∧ ¬ (hasClass d j "tab-content" = true ∧ x = "active")) ∨
        (j = p ∧ x = "active" ∧ j < d.length)) ∧
      ¬ (hasClass d j "nav-item" = true ∧ x = "active") := by
  have h1 : ("nav-item" : String) ≠ "active" := by decide
  rw [cleared_eq]
  simp only [hasClass_forEachRemove, mem_querySelectorAll, hasClass_classListAdd,
    hasClass_titled, titled_length, h1, and_false, or_false, false_and, not_false_eq_true,
    and_true]

theorem hasClass_classListAdd_other (d : Dom) (i j : Nat) (a x : String) (hx : x ≠ a) :
    hasClass (classListAdd d i a) j x = hasClass d j x := by
  rw [Bool.eq_iff_iff, hasClass_classListAdd]
  constructor
  · rintro (h | ⟨_, h, _⟩)
    · exact h
    · exact absurd h hx
  · exact Or.inl

theorem hasClass_classListAdd_self (d : Dom) (i j : Nat) (a : String) :
    hasClass (classListAdd d i a) j a = true ↔
      hasClass d j a = true ∨ (j = i ∧ j < d.length) := by
  rw [hasClass_classListAdd]
  constructor
  · rintro (h | ⟨h1, _, h2⟩)
    · exact Or.inl h
    · exact Or.inr ⟨h1, h2⟩
  · rintro (h | ⟨h1, h2⟩)
    · exact Or.inl h
    · exact Or.inr ⟨h1, rfl, h2⟩

theorem hasClass_cleared_other (d : Dom) (t p j : Nat) (title x : String)
    (hx : x ≠ "active") :
    hasClass (switchTabCleared d t p title) j x = hasClass d j x := by
  rw [Bool.eq_iff_iff, hasClass_cleared]
  constructor
  · rintro ⟨(⟨h, _⟩ | ⟨_, h, _⟩), _⟩
    · exact h
    · exact absurd h hx
  · intro h
    exact ⟨Or.inl ⟨h, fun hc => hx hc.2⟩, fun hc => hx hc.2⟩

theorem hasClass_cleared_active (d : Dom) (t p j : Nat) (title : String) :
    hasClass (switchTabCleared d t p title) j "active" = true ↔
      ((hasClass d j "active" = true ∧ ¬ hasClass d j "tab-content" = true) ∨
        (j = p ∧ j < d.length)) ∧ ¬ hasClass d j "nav-item" = true := by
  rw [hasClass_cleared]
  constructor
  · rintro ⟨(⟨h1, h2⟩ | ⟨h1, _, h2⟩), h3⟩
    · exact ⟨Or.inl ⟨h1, fun hc => h2 ⟨hc, rfl⟩⟩, fun hc => h3 ⟨hc, rfl⟩⟩
    · exact ⟨Or.inr ⟨h1, h2⟩, fun hc => h3 ⟨hc, rfl⟩⟩
  · rintro ⟨(⟨h1, h2⟩ | ⟨h1, h2⟩), h3⟩
    · exact ⟨Or.inl ⟨h1, fun hc => h2 hc.1⟩, fun hc => h3 hc.1⟩
    · exact ⟨Or.inr ⟨h1, rfl, h2⟩, fun hc => h3 hc.1⟩

theorem hasClass_titled_other (d : Dom) (t j : Nat) (title x : String) (hx : x ≠ "active") :
    hasClass (switchTabTitled d t title) j x = hasClass d j x := by
  rw [Bool.eq_iff_iff, hasClass_titled]
  constructor
  · exact fun h => h.1
  · exact fun h => ⟨h, fun hc => hx hc.2⟩

theorem cleared_length (d : Dom) (t p : Nat) (title : String) :
    (switchTabCleared d t p title).length = d.length := by
  rw [cleared_eq]
  simp only [forEachRemove_length, classListAdd, update_length, titled_length]

theorem cleared_ids (d : Dom) (t p : Nat) (title : String) :
    (switchTabCleared d t p title).map Element.id = d.map Element.id := by
  rw [cleared_eq, forEachRemove_ids, classListAdd_ids, titled_ids]

theorem cleared_navItems (d : Dom) (t p : Nat) (title : String) :
    querySelectorAll (switchTabCleared d t p title) "nav-item" = querySelectorAll d "nav-item" := by
  have h1 : ("nav-item" : String) ≠ "active" := by decide
  apply querySelectorAll_congr _ _ _ (cleared_length d t p title)
  intro i
  exact hasClass_cleared_other d t p i title _ h1

theorem navLine_other (d : Dom) (nav : List Nat) (tabId name : String) (k : Nat)
    (h : tabId ≠ name) : navLine d nav tabId name k = some d := by
  simp [navLine, h]

theorem navLine_hit (d : Dom) (nav : List Nat) (tabId : String) (k n : Nat)
    (h : nav[k]? = some n) : navLine d nav tabId tabId k = some (classListAdd d n "active") := by
  simp [navLine, h]

theorem switchTab_stage (d : Dom) (tabId title : String) (t p : Nat)
    (ht : getElementById d "page-title" = some t)
    (hp : getElementById d ("tab-" ++ tabId) = some p) :
    switchTab d tabId title =
      (match navLine (switchTabCleared d t p title) (querySelectorAll d "nav-item")
          tabId "finance" 0 with
      | none => ⟨switchTabCleared d t p title, [], true⟩
      | some d5 =>
        match navLine d5 (querySelectorAll d "nav-item") tabId "tasks" 1 with
        | none => ⟨d5, [], true⟩
        | some d6 =>
          match navLine d6 (querySelectorAll d "nav-item") tabId "habits" 2 with
          | none => ⟨d6, [], true⟩
          | some d7 =>
            match navLine d7 (querySelectorAll d "nav-item") tabId "settings" 3 with
            | none => ⟨d7, [], true⟩
            | some d8 => ⟨d8, [], false⟩) := by
  have hp2 : getElementById (switchTabTitled d t title) ("tab-" ++ tabId) = some p := by
    rw [getElementById_congr _ d _ (titled_ids d t title), hp]
  have hnav := cleared_navItems d t p title
  unfold switchTabTitled at hp2
  unfold switchTabCleared at hnav
  unfold switchTab
  simp only [ht, hp2, hnav]
  rfl

theorem switchTab_known (d : Dom) (tabId title : String) (t p n : Nat)
    (ht : getElementById d "page-title" = some t)
    (hp : getElementById d ("tab-" ++ tabId) = some p)
    (hmem : tabId ∈ tabIds)
    (hn : (querySelectorAll d "nav-item")[navPosition tabId]? = some n) :
    switchTab d tabId title =
      ⟨classListAdd (switchTabCleared d t p title) n "active", [], false⟩ := by
  rw [switchTab_stage d tabId title t p ht hp]
  simp only [tabIds, List.mem_cons, List.mem_singleton, List.not_mem_nil, or_false] at hmem
  rcases hmem with h | h | h | h <;> subst h
  · have e : navPosition "finance" = 0 := by decide
    rw [e] at hn
    simp only [navLine_hit _ _ _ _ n hn,
      navLine_other _ _ "finance" "tasks" 1 (by decide),
      navLine_other _ _ "finance" "habits" 2 (by decide),
      navLine_other _ _ "finance" "settings" 3 (by decide)]
  · have e : navPosition "tasks" = 1 := by decide
    rw [e] at hn
    simp only [navLine_other _ _ "tasks" "finance" 0 (by decide),
      navLine_hit _ _ _ _ n hn,
      navLine_other _ _ "tasks" "habits" 2 (by decide),
      navLine_other _ _ "tasks" "settings" 3 (by decide)]
  · have e : navPosition "habits" = 2 := by decide
    rw [e] at hn
    simp only [navLine_other _ _ "habits" "finance" 0 (by decide),
      navLine_other _ _ "habits" "tasks" 1 (by decide), navLine_hit _ _ _ _ n hn,
      navLine_other _ _ "habits" "settings" 3 (by decide)]
  · have e : navPosition "settings" = 3 := by decide
    rw [e] at hn
    simp only [navLine_other _ _ "settings" "finance" 0 (by decide),
      navLine_other _ _ "settings" "tasks" 1 (by decide),
      navLine_other _ _ "settings" "habits" 2 (by decide), navLine_hit _ _ _ _ n hn]

theorem switchTab_unknown (d : Dom) (tabId title : String) (t p : Nat)
    (ht : getElementById d "page-title" = some t)
    (hp : getElementById d ("tab-" ++ tabId) = some p)
    (hmem : tabId ∉ tabIds) :
    switchTab d tabId title = ⟨switchTabCleared d t p title, [], false⟩ := by
  rw [switchTab_stage d tabId title t p ht hp]
  simp only [tabIds, List.mem_cons, List.mem_singleton, List.not_mem_nil, or_false,
    not_or] at hmem
  simp only [navLine_other _ _ tabId _ _ hmem.1, navLine_other _ _ tabId _ _ hmem.2.1,
    navLine_other _ _ tabId _ _ hmem.2.2.1, navLine_other _ _ tabId _ _ hmem.2.2.2]

theorem switchTab_missing (d : Dom) (tabId title : String) (t : Nat)
    (ht : getElementById d "page-title" = some t)
    (hp : getElementById d ("tab-" ++ tabId) = none) :
    switchTab d tabId title = ⟨switchTabTitled d t title, [], true⟩ := by
  have hp2 : getElementById (switchTabTitled d t title) ("tab-" ++ tabId) = none := by
    rw [getElementById_congr _ d _ (titled_ids d t title), hp]
  unfold switchTabTitled at hp2
  unfold switchTab
  simp only [ht, hp2]
  rfl


theorem innerTextOf_titled (d : Dom) (t : Nat) (title : String)
    (ht : getElementById d "page-title" = some t) :
    innerTextOf (switchTabTitled d t title) "page-title" = some title := by
  unfold innerTextOf switchTabTitled
  rw [readById_forEachRemove _ _ _ _ Element.innerText (fun _ _ => rfl)]
  exact readById_update_hit d t _ _ title Element.innerText (fun _ => rfl) (fun _ => rfl) ht

theorem innerTextOf_cleared (d : Dom) (t p : Nat) (title : String)
    (ht : getElementById d "page-title" = some t) :
    innerTextOf (switchTabCleared d t p title) "page-title" = some title := by
  rw [cleared_eq]
  unfold innerTextOf
  rw [readById_forEachRemove _ _ _ _ Element.innerText (fun _ _ => rfl),
    readById_classListAdd _ _ _ _ Element.innerText (fun _ _ => rfl)]
  exact innerTextOf_titled d t title ht

theorem navPosition_lt (tabId : String) : navPosition tabId < 4 := by
  unfold navPosition
  split_ifs <;> omega

/-! ## The claims on `switchTab` -/

/-- C1: on a page with the title, the four panels and four nav items, `switchTab` with one
of the four tab identifiers runs to completion and leaves exactly one `.tab-content` panel
active, the element `tab-<tabId>`, and exactly one nav item active, the one at position
finance→0, tasks→1, habits→2, settings→3. -/
theorem switchTab_one_panel_one_nav (d : Dom) (tabId title : String)
    (hd : TabPage d) (hmem : tabId ∈ tabIds) :
    ∃ p n, getElementById d ("tab-" ++ tabId) = some p ∧
      (querySelectorAll d "nav-item")[navPosition tabId]? = some n ∧
      (switchTab d tabId title).threw = false ∧
      marked (switchTab d tabId title).dom "tab-content" "active" = [p] ∧
      marked (switchTab d tabId title).dom "nav-item" "active" = [n] ∧
      getElementById (switchTab d tabId title).dom ("tab-" ++ tabId) = some p ∧
      (querySelectorAll (switchTab d tabId title).dom "nav-item")[navPosition tabId]? = some n := by
  obtain ⟨htitle, hpanels, hnavlen, hdisj⟩ := hd
  obtain ⟨t, ht⟩ := isSome_getElementById d _ htitle
  have hpan := hpanels tabId hmem
  unfold isPanel at hpan
  cases hp : getElementById d ("tab-" ++ tabId) with
  | none => simp [hp] at hpan
  | some p =>
    simp only [hp] at hpan
    have hnlt : navPosition tabId < (querySelectorAll d "nav-item").length := by
      rw [hnavlen]; exact navPosition_lt tabId
    have hn : (querySelectorAll d "nav-item")[navPosition tabId]? =
        some ((querySelectorAll d "nav-item")[navPosition tabId]) :=
      List.getElem?_eq_getElem hnlt
    generalize (querySelectorAll d "nav-item")[navPosition tabId] = n at hn
    have hnav : hasClass d n "nav-item" = true :=
      (mem_querySelectorAll d "nav-item" n).mp (List.getElem?_mem hn)
    have hnT : hasClass d n "tab-content" = false :=
      hdisj n ((mem_querySelectorAll d "nav-item" n).mpr hnav)
    have hpN : ¬ hasClass d p "nav-item" = true := by
      intro h
      have := hdisj p ((mem_querySelectorAll d "nav-item" p).mpr h)
      rw [hpan] at this
      exact Bool.noConfusion this
    have h1 : ("nav-item" : String) ≠ "active" := by decide
    have h2 : ("tab-content" : String) ≠ "active" := by decide
    refine ⟨p, n, rfl, hn, ?_⟩
    rw [switchTab_known d tabId title t p n ht hp hmem hn]
    refine ⟨rfl, ?_, ?_, ?_, ?_⟩
    · apply marked_eq_singleton
      intro j
      rw [hasClass_classListAdd_other _ _ _ _ _ h2, hasClass_cleared_other _ _ _ _ _ _ h2,
        hasClass_classListAdd_self, hasClass_cleared_active, cleared_length]
      constructor
      · rintro ⟨hT, (⟨(⟨_, hnT2⟩ | ⟨hj, _⟩), _⟩ | ⟨hj, _⟩)⟩
        · exact absurd hT hnT2
        · exact hj
        · subst hj; rw [hnT] at hT; exact Bool.noConfusion hT
      · rintro rfl
        exact ⟨hpan, Or.inl ⟨Or.inr ⟨rfl, hasClass_lt d j _ hpan⟩, hpN⟩⟩
    · apply marked_eq_singleton
      intro j
      rw [hasClass_classListAdd_other _ _ _ _ _ h1, hasClass_cleared_other _ _ _ _ _ _ h1,
        hasClass_classListAdd_self, hasClass_cleared_active, cleared_length]
      constructor
      · rintro ⟨hN, (⟨_, hnN⟩ | ⟨hj, _⟩)⟩
        · exact absurd hN hnN
        · exact hj
      · rintro rfl
        exact ⟨hnav, Or.inr ⟨rfl, hasClass_lt d j _ hnav⟩⟩
    · rw [getElementById_congr _ (switchTabCleared d t p title) _ (classListAdd_ids _ _ _),
        getElementById_congr _ d _ (cleared_ids d t p title), hp]
    · have : querySelectorAll (classListAdd (switchTabCleared d t p title) n "active")
          "nav-item" = querySelectorAll d "nav-item" := by
        apply querySelectorAll_congr
        · rw [classListAdd_length, cleared_length]
        · intro i
          rw [hasClass_classListAdd_other _ _ _ _ _ h1,
            hasClass_cleared_other _ _ _ _ _ _ h1]
      rw [this, hn]

/-- C1, instance: on the sample page `switchTab('tasks', …)` leaves the panel `tab-tasks`
(element 2) and the second nav item (element 6) as the only active ones. -/
theorem switchTab_one_panel_one_nav_witness :
    TabPage samplePage ∧ "tasks" ∈ tabIds ∧
      marked (switchTab samplePage "tasks" "Задачи").dom "tab-content" "active" = [2] ∧
      marked (switchTab samplePage "tasks" "Задачи").dom "nav-item" "active" = [6] := by
  have hd : TabPage samplePage := by decide
  have hm : "tasks" ∈ tabIds := by decide
  obtain ⟨p, n, hp, hn, _, h1, h2, _, _⟩ :=
    switchTab_one_panel_one_nav samplePage "tasks" "Задачи" hd hm
  have hp2 : getElementById samplePage ("tab-" ++ "tasks") = some 2 := by decide
  have hn2 : (querySelectorAll samplePage "nav-item")[navPosition "tasks"]? = some 6 := by
    decide
  rw [hp2] at hp
  rw [hn2] at hn
  cases hp
  cases hn
  exact ⟨hd, hm, h1, h2⟩

/-- C9: for every tabId outside the four, on a page with the title element, `switchTab`
writes the title and gives the active mark to no nav item: the nav items are the same
elements as before, and every nav item active afterwards was active before. -/
theorem switchTab_unrecognized_title (d : Dom) (tabId title : String)
    (htitle : (getElementById d "page-title").isSome = true) (hmem : tabId ∉ tabIds) :
    innerTextOf (switchTab d tabId title).dom "page-title" = some title ∧
    (∀ j, hasClass (switchTab d tabId title).dom j "nav-item" = hasClass d j "nav-item") ∧
    (∀ j, hasClass (switchTab d tabId title).dom j "nav-item" = true →
      hasClass (switchTab d tabId title).dom j "active" = true →
      hasClass d j "active" = true) := by
  obtain ⟨t, ht⟩ := isSome_getElementById d _ htitle
  have h1 : ("nav-item" : String) ≠ "active" := by decide
  cases hp : getElementById d ("tab-" ++ tabId) with
  | none =>
    rw [switchTab_missing d tabId title t ht hp]
    refine ⟨innerTextOf_titled d t title ht, ?_, ?_⟩
    · intro j
      exact hasClass_titled_other d t j title _ h1
    · intro j _ hA
      exact ((hasClass_titled d t j title "active").mp hA).1
  | some p =>
    rw [switchTab_unknown d tabId title t p ht hp hmem]
    refine ⟨innerTextOf_cleared d t p title ht, ?_, ?_⟩
    · intro j
      exact hasClass_cleared_other d t p j title _ h1
    · intro j hN hA
      rw [hasClass_cleared_other _ _ _ _ _ _ h1] at hN
      exact absurd hN ((hasClass_cleared_active d t p j title).mp hA).2

/-- C9, instance: `switchTab('other', 'X')` on the sample page writes the title `X`, and the
nav item active before (element 5) is the only one active afterwards. -/
theorem switchTab_unrecognized_title_witness :
    (getElementById samplePage "page-title").isSome = true ∧ "other" ∉ tabIds ∧
      innerTextOf (switchTab samplePage "other" "X").dom "page-title" = some "X" ∧
      (∀ j, hasClass (switchTab samplePage "other" "X").dom j "nav-item" = true →
        hasClass (switchTab samplePage "other" "X").dom j "active" = true →
        hasClass samplePage j "active" = true) :=
  ⟨by decide, by decide,
    (switchTab_unrecognized_title samplePage "other" "X" (by decide) (by decide)).1,
    (switchTab_unrecognized_title samplePage "other" "X" (by decide) (by decide)).2.2⟩

/-- C10, as stated, fails: on the sample page, whose panels are the four tabs,
`switchTab('other', 'X')` ends in a `TypeError`. -/
theorem switchTab_unrecognized_throws_sample :
    TabPage samplePage ∧ "other" ∉ tabIds ∧
      getElementById samplePage ("tab-" ++ "other") = none ∧
      (switchTab samplePage "other" "X").threw = true := by
  decide

/-- C10, amended: for every tabId outside the four, on a page with the title element,
`switchTab` ends in a `TypeError` exactly when the page has no element `tab-<tabId>`.  In
that case the title is written and the panels are deactivated before the throw and no
other class mark changes; when the element exists the call completes and the four nav
lines are no-ops, so that no nav item is active afterwards. -/
theorem switchTab_unrecognized_throws (d : Dom) (tabId title : String)
    (htitle : (getElementById d "page-title").isSome = true) (hmem : tabId ∉ tabIds) :
    ((switchTab d tabId title).threw = true ↔ getElementById d ("tab-" ++ tabId) = none) ∧
    (getElementById d ("tab-" ++ tabId) = none →
      innerTextOf (switchTab d tabId title).dom "page-title" = some title ∧
      ∀ j x, hasClass (switchTab d tabId title).dom j x = true ↔
        hasClass d j x = true ∧ ¬ (hasClass d j "tab-content" = true ∧ x = "active")) ∧
    ((getElementById d ("tab-" ++ tabId)).isSome = true →
      marked (switchTab d tabId title).dom "nav-item" "active" = []) := by
  obtain ⟨t, ht⟩ := isSome_getElementById d _ htitle
  have h1 : ("nav-item" : String) ≠ "active" := by decide
  cases hp : getElementById d ("tab-" ++ tabId) with
  | none =>
    rw [switchTab_missing d tabId title t ht hp]
    refine ⟨by simp, fun _ => ⟨innerTextOf_titled d t title ht, ?_⟩, by simp⟩
    intro j x
    exact hasClass_titled d t j title x
  | some p =>
    rw [switchTab_unknown d tabId title t p ht hp hmem]
    refine ⟨by simp, by simp, fun _ => ?_⟩
    apply marked_eq_nil
    intro j hN
    cases hA : hasClass (switchTabCleared d t p title) j "active" with
    | false => rfl
    | true =>
      rw [hasClass_cleared_other _ _ _ _ _ _ h1] at hN
      exact absurd hN ((hasClass_cleared_active d t p j title).mp hA).2

/-- C10, amended, instance: on the sample page `switchTab('other', 'X')` throws, having
written the title. -/
theorem switchTab_unrecognized_throws_witness :
    (getElementById samplePage "page-title").isSome = true ∧ "other" ∉ tabIds ∧
      ((switchTab samplePage "other" "X").threw = true ↔
        getElementById samplePage ("tab-" ++ "other") = none) :=
  ⟨by decide, by decide,
    (switchTab_unrecognized_throws samplePage "other" "X" (by decide) (by decide)).1⟩


/-! ## Lemmas on category selection -/

theorem length_of_ids (d d' : Dom) (h : d'.map Element.id = d.map Element.id) :
    d'.length = d.length := by
  have := congrArg List.length h
  simpa using this

theorem selectCategory_ids (d : Dom) (el : Nat) (c : String) :
    (selectCategory d el c).dom.map Element.id = d.map Element.id := by
  unfold selectCategory
  simp only
  split
  · exact forEachRemove_ids _ _ _
  · split
    · rw [classListAdd_ids, forEachRemove_ids]
    · split
      · rw [setValue_ids, classListAdd_ids, forEachRemove_ids]
      · rw [setDisplay_ids, setValue_ids, classListAdd_ids, forEachRemove_ids]

theorem toggleCustomCategory_ids (d : Dom) :
    (toggleCustomCategory d).dom.map Element.id = d.map Element.id := by
  unfold toggleCustomCategory
  simp only
  split
  · exact forEachRemove_ids _ _ _
  · split
    · rw [classListAdd_ids, forEachRemove_ids]
    · split
      · rw [setValue_ids, classListAdd_ids, forEachRemove_ids]
      · rw [setDisplay_ids, setValue_ids, classListAdd_ids, forEachRemove_ids]

theorem selectCategory_eq (d : Dom) (el ci g : Nat) (c : String) (hel : el < d.length)
    (hci : getElementById d "categoryInput" = some ci)
    (hg : getElementById d "custom-cat-group" = some g) :
    selectCategory d el c =
      ⟨setDisplay (setValue (categoryMarked d el) ci c) g "none", [], false⟩ := by
  obtain ⟨e1, hel1⟩ := getElem?_of_lt (forEachRemove d (querySelectorAll d "tag") "selected")
    el (by rw [forEachRemove_length]; exact hel)
  have hci2 : getElementById (categoryMarked d el) "categoryInput" = some ci := by
    rw [getElementById_congr _ d _ (by
      unfold categoryMarked; rw [classListAdd_ids, forEachRemove_ids]), hci]
  have hg3 : getElementById (setValue (categoryMarked d el) ci c) "custom-cat-group" =
      some g := by
    rw [getElementById_congr _ d _ (by
      unfold categoryMarked; rw [setValue_ids, classListAdd_ids, forEachRemove_ids]), hg]
  unfold categoryMarked at hci2 hg3
  unfold selectCategory categoryMarked
  simp only [hel1, hci2, hg3]

theorem toggleCustomCategory_eq (d : Dom) (b ci g : Nat)
    (hb : getElementById d "add-cat-btn" = some b)
    (hci : getElementById d "categoryInput" = some ci)
    (hg : getElementById d "custom-cat-group" = some g) :
    toggleCustomCategory d =
      ⟨setDisplay (setValue (categoryMarked d b) ci "__custom__") g "flex", [], false⟩ := by
  have hb1 : getElementById (forEachRemove d (querySelectorAll d "tag") "selected")
      "add-cat-btn" = some b := by
    rw [getElementById_congr _ d _ (forEachRemove_ids _ _ _), hb]
  have hci2 : getElementById (categoryMarked d b) "categoryInput" = some ci := by
    rw [getElementById_congr _ d _ (by
      unfold categoryMarked; rw [classListAdd_ids, forEachRemove_ids]), hci]
  have hg3 : getElementById (setValue (categoryMarked d b) ci "__custom__")
      "custom-cat-group" = some g := by
    rw [getElementById_congr _ d _ (by
      unfold categoryMarked; rw [setValue_ids, classListAdd_ids, forEachRemove_ids]), hg]
  unfold categoryMarked at hci2 hg3
  unfold toggleCustomCategory categoryMarked
  simp only [hb1, hci2, hg3]

theorem hasClass_categoryMarked (d : Dom) (i j : Nat) (x : String) :
    hasClass (categoryMarked d i) j x = true ↔
      (hasClass d j x = true ∧ ¬ (hasClass d j "tag" = true ∧ x = "selected")) ∨
        (j = i ∧ x = "selected" ∧ j < d.length) := by
  unfold categoryMarked
  rw [hasClass_classListAdd, hasClass_forEachRemove, mem_querySelectorAll,
    forEachRemove_length]

theorem hasClass_selectCategory (d : Dom) (el j : Nat) (c x : String) (hel : el < d.length) :
    hasClass (selectCategory d el c).dom j x = hasClass (categoryMarked d el) j x := by
  obtain ⟨e1, hel1⟩ := getElem?_of_lt (forEachRemove d (querySelectorAll d "tag") "selected")
    el (by rw [forEachRemove_length]; exact hel)
  unfold selectCategory categoryMarked
  simp only [hel1]
  split
  · rfl
  · split
    · rw [hasClass_setValue]
    · rw [hasClass_setDisplay, hasClass_setValue]

theorem hasClass_toggleCustomCategory (d : Dom) (b j : Nat) (x : String)
    (hb : getElementById d "add-cat-btn" = some b) :
    hasClass (toggleCustomCategory d).dom j x = hasClass (categoryMarked d b) j x := by
  have hb1 : getElementById (forEachRemove d (querySelectorAll d "tag") "selected")
      "add-cat-btn" = some b := by
    rw [getElementById_congr _ d _ (forEachRemove_ids _ _ _), hb]
  unfold toggleCustomCategory categoryMarked
  simp only [hb1]
  split
  · rfl
  · split
    · rw [hasClass_setValue]
    · rw [hasClass_setDisplay, hasClass_setValue]

theorem hasClass_tag_selectCategory (d : Dom) (el j : Nat) (c : String) :
    hasClass (selectCategory d el c).dom j "tag" = hasClass d j "tag" := by
  have h1 : ("tag" : String) ≠ "selected" := by decide
  have hrm : hasClass (forEachRemove d (querySelectorAll d "tag") "selected") j "tag" =
      hasClass d j "tag" := by
    rw [Bool.eq_iff_iff, hasClass_forEachRemove]
    exact ⟨fun h => h.1, fun h => ⟨h, fun hc => h1 hc.2⟩⟩
  unfold selectCategory
  simp only
  split
  · exact hrm
  · split
    · rw [hasClass_classListAdd_other _ _ _ _ _ h1, hrm]
    · split
      · rw [hasClass_setValue, hasClass_classListAdd_other _ _ _ _ _ h1, hrm]
      · rw [hasClass_setDisplay, hasClass_setValue,
          hasClass_classListAdd_other _ _ _ _ _ h1, hrm]

theorem hasClass_tag_toggleCustomCategory (d : Dom) (j : Nat) :
    hasClass (toggleCustomCategory d).dom j "tag" = hasClass d j "tag" := by
  have h1 : ("tag" : String) ≠ "selected" := by decide
  have hrm : hasClass (forEachRemove d (querySelectorAll d "tag") "selected") j "tag" =
      hasClass d j "tag" := by
    rw [Bool.eq_iff_iff, hasClass_forEachRemove]
    exact ⟨fun h => h.1, fun h => ⟨h, fun hc => h1 hc.2⟩⟩
  unfold toggleCustomCategory
  simp only
  split
  · exact hrm
  · split
    · rw [hasClass_classListAdd_other _ _ _ _ _ h1, hrm]
    · split
      · rw [hasClass_setValue, hasClass_classListAdd_other _ _ _ _ _ h1, hrm]
      · rw [hasClass_setDisplay, hasClass_setValue,
          hasClass_classListAdd_other _ _ _ _ _ h1, hrm]

theorem run_ids (d : Dom) (c : CategoryCall) :
    (c.run d).dom.map Element.id = d.map Element.id := by
  cases c with
  | select el cat => exact selectCategory_ids d el cat
  | toggleCustom => exact toggleCustomCategory_ids d

theorem run_tag (d : Dom) (c : CategoryCall) (j : Nat) :
    hasClass (c.run d).dom j "tag" = hasClass d j "tag" := by
  cases c with
  | select el cat => exact hasClass_tag_selectCategory d el j cat
  | toggleCustom => exact hasClass_tag_toggleCustomCategory d j

theorem runCalls_ids (d : Dom) (cs : List CategoryCall) :
    (runCalls d cs).map Element.id = d.map Element.id := by
  induction cs generalizing d with
  | nil => rfl
  | cons c cs ih =>
    have step : runCalls d (c :: cs) = runCalls (c.run d).dom cs := rfl
    rw [step, ih, run_ids]

theorem runCalls_tag (d : Dom) (cs : List CategoryCall) (j : Nat) :
    hasClass (runCalls d cs) j "tag" = hasClass d j "tag" := by
  induction cs generalizing d with
  | nil => rfl
  | cons c cs ih =>
    have step : runCalls d (c :: cs) = runCalls (c.run d).dom cs := rfl
    rw [step, ih, run_tag]

theorem target_congr (d d' : Dom) (c : CategoryCall)
    (h : d'.map Element.id = d.map Element.id) : c.target d' = c.target d := by
  cases c with
  | select el cat => rfl
  | toggleCustom => exact getElementById_congr d' d _ h

theorem run_marked (d : Dom) (c : CategoryCall) (t : Nat) (ht : c.target d = some t)
    (htag : hasClass d t "tag" = true) :
    marked (c.run d).dom "tag" "selected" = [t] := by
  have hlt : t < d.length := hasClass_lt d t _ htag
  have key : ∀ j x, hasClass (c.run d).dom j x = hasClass (categoryMarked d t) j x := by
    intro j x
    cases c with
    | select el cat =>
      simp only [CategoryCall.target, Option.some.injEq] at ht
      subst ht
      exact hasClass_selectCategory d el j cat x hlt
    | toggleCustom => exact hasClass_toggleCustomCategory d t j x ht
  apply marked_eq_singleton
  intro j
  rw [run_tag, key, hasClass_categoryMarked]
  constructor
  · rintro ⟨hT, (⟨_, hn⟩ | ⟨hj, _, _⟩)⟩
    · exact absurd ⟨hT, rfl⟩ hn
    · exact hj
  · rintro rfl
    exact ⟨htag, Or.inr ⟨rfl, rfl, hlt⟩⟩

theorem onTag_run (d : Dom) (c c2 : CategoryCall) :
    c2.onTag (c.run d).dom = c2.onTag d := by
  unfold CategoryCall.onTag
  rw [target_congr d (c.run d).dom c2 (run_ids d c)]
  cases c2.target d with
  | none => rfl
  | some t => exact run_tag d c t

theorem run_selected_other (d : Dom) (c : CategoryCall) (j : Nat)
    (hc : c.onTag d = true) (hj : hasClass d j "tag" = false) :
    hasClass (c.run d).dom j "selected" = hasClass d j "selected" := by
  unfold CategoryCall.onTag at hc
  cases ht : c.target d with
  | none => simp [ht] at hc
  | some t =>
    simp only [ht] at hc
    have hlt : t < d.length := hasClass_lt d t _ hc
    have key : hasClass (c.run d).dom j "selected" =
        hasClass (categoryMarked d t) j "selected" := by
      cases c with
      | select el cat =>
        simp only [CategoryCall.target, Option.some.injEq] at ht
        subst ht
        exact hasClass_selectCategory d el j cat _ hlt
      | toggleCustom => exact hasClass_toggleCustomCategory d t j _ ht
    rw [key, Bool.eq_iff_iff, hasClass_categoryMarked]
    constructor
    · rintro (⟨h, _⟩ | ⟨h, _, _⟩)
      · exact h
      · subst h; rw [hc] at hj; exact Bool.noConfusion hj
    · intro h
      refine Or.inl ⟨h, fun hcon => ?_⟩
      rw [hj] at hcon
      exact Bool.noConfusion hcon.1

theorem runCalls_selected_other (d : Dom) (cs : List CategoryCall) (j : Nat)
    (hcs : ∀ c ∈ cs, c.onTag d = true) (hj : hasClass d j "tag" = false) :
    hasClass (runCalls d cs) j "selected" = hasClass d j "selected" := by
  induction cs generalizing d with
  | nil => rfl
  | cons c cs ih =>
    have step : runCalls d (c :: cs) = runCalls (c.run d).dom cs := rfl
    have hc : c.onTag d = true := hcs c (List.mem_cons_self c cs)
    rw [step, ih (c.run d).dom
      (fun c2 h2 => by rw [onTag_run]; exact hcs c2 (List.mem_cons_of_mem c h2))
      (by rw [run_tag]; exact hj)]
    exact run_selected_other d c j hc hj

/-! ## The claims on category selection -/

/-- C3: on a page with the category controls, `toggleCustomCategory()` completes with the
hidden category value `"__custom__"` and the custom-category group displayed `flex`, and
for every element `el` and label `c`, `selectCategory(el, c)` completes with the hidden
value `c` and the group displayed `none`, whatever the page was before. -/
theorem category_value_and_group (d : Dom) (el : Nat) (c : String)
    (hd : CategoryPage d) (hel : el < d.length) :
    (toggleCustomCategory d).threw = false ∧
    valueOf (toggleCustomCategory d).dom "categoryInput" = some "__custom__" ∧
    displayOf (toggleCustomCategory d).dom "custom-cat-group" = some "flex" ∧
    (selectCategory d el c).threw = false ∧
    valueOf (selectCategory d el c).dom "categoryInput" = some c ∧
    displayOf (selectCategory d el c).dom "custom-cat-group" = some "none" := by
  obtain ⟨h1, h2, h3⟩ := hd
  obtain ⟨ci, hci⟩ := isSome_getElementById d _ h1
  obtain ⟨g, hg⟩ := isSome_getElementById d _ h2
  obtain ⟨b, hb⟩ := isSome_getElementById d _ h3
  have idsM : ∀ i, (categoryMarked d i).map Element.id = d.map Element.id := by
    intro i; unfold categoryMarked; rw [classListAdd_ids, forEachRemove_ids]
  have hciM : ∀ i, getElementById (categoryMarked d i) "categoryInput" = some ci := by
    intro i; rw [getElementById_congr _ d _ (idsM i), hci]
  have hgV : ∀ i v, getElementById (setValue (categoryMarked d i) ci v) "custom-cat-group" =
      some g := by
    intro i v
    rw [getElementById_congr _ d _ (by rw [setValue_ids, idsM]), hg]
  have val : ∀ i v w, valueOf (setDisplay (setValue (categoryMarked d i) ci v) g w)
      "categoryInput" = some v := by
    intro i v w
    have e1 : valueOf (setDisplay (setValue (categoryMarked d i) ci v) g w) "categoryInput" =
        valueOf (setValue (categoryMarked d i) ci v) "categoryInput" :=
      readById_update _ g _ _ Element.value (fun _ => rfl) (fun _ => rfl)
    rw [e1]
    exact readById_update_hit _ ci _ _ v Element.value (fun _ => rfl) (fun _ => rfl) (hciM i)
  have dis : ∀ i v w, displayOf (setDisplay (setValue (categoryMarked d i) ci v) g w)
      "custom-cat-group" = some w := by
    intro i v w
    exact readById_update_hit _ g _ _ w Element.display (fun _ => rfl) (fun _ => rfl) (hgV i v)
  rw [toggleCustomCategory_eq d b ci g hb hci hg, selectCategory_eq d el ci g c hel hci hg]
  exact ⟨rfl, val _ _ _, dis _ _ _, rfl, val _ _ _, dis _ _ _⟩

/-- C3, instance: on the sample page, after `toggleCustomCategory()` the hidden value is the
sentinel and the group is shown; after `selectCategory(el, 'food')` on the first tag the
value is `food` and the group is hidden. -/
theorem category_value_and_group_witness :
    CategoryPage samplePage ∧ 9 < samplePage.length ∧
      valueOf (toggleCustomCategory samplePage).dom "categoryInput" = some "__custom__" ∧
      displayOf (toggleCustomCategory samplePage).dom "custom-cat-group" = some "flex" ∧
      valueOf (selectCategory samplePage 9 "food").dom "categoryInput" = some "food" ∧
      displayOf (selectCategory samplePage 9 "food").dom "custom-cat-group" = some "none" :=
  have h := category_value_and_group samplePage 9 "food" (by decide) (by decide)
  ⟨by decide, by decide, h.2.1, h.2.2.1, h.2.2.2.2.1, h.2.2.2.2.2⟩

/-- C4: starting from a page on which no tag is selected, after every finite sequence of
`selectCategory(el, c)` calls on tag elements and `toggleCustomCategory()` calls (the
control `add-cat-btn` being a tag), at most one tag carries the selected mark, after a
non-empty sequence it is exactly the element of the last call, and the mark of no element
other than a tag has changed. -/
theorem at_most_one_selected (d : Dom) (cs : List CategoryCall)
    (h0 : marked d "tag" "selected" = [])
    (hcs : ∀ c ∈ cs, c.onTag d = true) :
    (marked (runCalls d cs) "tag" "selected").length ≤ 1 ∧
    (∀ c, cs.getLast? = some c →
      ∃ t, c.target d = some t ∧ marked (runCalls d cs) "tag" "selected" = [t]) ∧
    (∀ j, hasClass d j "tag" = false →
      hasClass (runCalls d cs) j "selected" = hasClass d j "selected") := by
  refine ⟨?_, ?_, fun j hj => runCalls_selected_other d cs j hcs hj⟩
  · rcases List.eq_nil_or_concat cs with rfl | ⟨L, b, rfl⟩
    · show (marked d "tag" "selected").length ≤ 1
      rw [h0]; simp
    · rw [List.concat_eq_append] at hcs ⊢
      have hb : b.onTag d = true := hcs b (by simp)
      unfold CategoryCall.onTag at hb
      cases ht : b.target d with
      | none => simp [ht] at hb
      | some t =>
        simp only [ht] at hb
        have hrun : runCalls d (L ++ [b]) = (b.run (runCalls d L)).dom := by
          unfold runCalls
          rw [List.foldl_append]
          rfl
        have ht2 : b.target (runCalls d L) = some t := by
          rw [target_congr d (runCalls d L) b (runCalls_ids d L), ht]
        have htag2 : hasClass (runCalls d L) t "tag" = true := by
          rw [runCalls_tag, hb]
        rw [hrun, run_marked (runCalls d L) b t ht2 htag2]
        simp
  · intro c hc
    rcases List.eq_nil_or_concat cs with rfl | ⟨L, b, rfl⟩
    · simp at hc
    · rw [List.concat_eq_append] at hcs hc ⊢
      simp only [List.getLast?_append, List.getLast?_singleton, Option.or,
        Option.some.injEq] at hc
      subst hc
      have hb : b.onTag d = true := hcs b (by simp)
      unfold CategoryCall.onTag at hb
      cases ht : b.target d with
      | none => simp [ht] at hb
      | some t =>
        simp only [ht] at hb
        have hrun : runCalls d (L ++ [b]) = (b.run (runCalls d L)).dom := by
          unfold runCalls
          rw [List.foldl_append]
          rfl
        have ht2 : b.target (runCalls d L) = some t := by
          rw [target_congr d (runCalls d L) b (runCalls_ids d L), ht]
        have htag2 : hasClass (runCalls d L) t "tag" = true := by
          rw [runCalls_tag, hb]
        exact ⟨t, rfl, by rw [hrun, run_marked (runCalls d L) b t ht2 htag2]⟩

/-- C4, instance: on the sample page, after selecting the first tag, opening the custom
category and selecting the second tag, the second tag (element 10) is the only selected
one. -/
theorem at_most_one_selected_witness :
    marked samplePage "tag" "selected" = [] ∧
      marked (runCalls samplePage [CategoryCall.select 9 "food", CategoryCall.toggleCustom,
        CategoryCall.select 10 "taxi"]) "tag" "selected" = [10] := by
  have h0 : marked samplePage "tag" "selected" = [] := by decide
  obtain ⟨t, ht, hm⟩ := (at_most_one_selected samplePage
    [CategoryCall.select 9 "food", CategoryCall.toggleCustom, CategoryCall.select 10 "taxi"]
    h0 (by decide)).2.1 (CategoryCall.select 10 "taxi") (by decide)
  simp only [CategoryCall.target, Option.some.injEq] at ht
  subst ht
  exact ⟨h0, hm⟩


/-! ## Lemmas on the payloads -/

theorem serializeValue_number (n : JsNumber) :
    serializeValue (JsValue.number n) =
      if n.isFinite = true then numberToString n else "null" := by
  cases n <;> rfl

theorem stringify_action (a : String) :
    stringify [("action", JsValue.string a)] =
      "\x7b\"action\":" ++ quoteJSONString a ++ "\x7d" := by
  apply String.ext
  simp [stringify, String.intercalate, String.intercalate.go, serializeValue, quoteJSONString,
    quoteChar, quoteMark]

theorem stringify_task (text : String) :
    stringify [("action", JsValue.string "add_task"), ("text", JsValue.string text)] =
      "\x7b\"action\":\"add_task\",\"text\":" ++ quoteJSONString text ++ "\x7d" := by
  apply String.ext
  simp [stringify, String.intercalate, String.intercalate.go, serializeValue, quoteJSONString,
    quoteChar, quoteMark]

theorem stringify_habit (text time : String) :
    stringify [("action", JsValue.string "add_habit"), ("text", JsValue.string text),
        ("time", JsValue.string time)] =
      "\x7b\"action\":\"add_habit\",\"text\":" ++ quoteJSONString text ++ ",\"time\":" ++
        quoteJSONString time ++ "\x7d" := by
  apply String.ext
  simp [stringify, String.intercalate, String.intercalate.go, serializeValue, quoteJSONString,
    quoteChar, quoteMark]

theorem stringify_city (city : String) :
    stringify [("action", JsValue.string "update_city"), ("city", JsValue.string city)] =
      "\x7b\"action\":\"update_city\",\"city\":" ++ quoteJSONString city ++ "\x7d" := by
  apply String.ext
  simp [stringify, String.intercalate, String.intercalate.go, serializeValue, quoteJSONString,
    quoteChar, quoteMark]

theorem stringify_expense (amount category : String) :
    stringify [("action", JsValue.string "add_expense"),
        ("amount", JsValue.number (parseFloat amount)),
        ("category", JsValue.string category)] =
      "\x7b\"action\":\"add_expense\",\"amount\":" ++ amountText amount ++ ",\"category\":" ++
        quoteJSONString category ++ "\x7d" := by
  have h : serializeValue (JsValue.number (parseFloat amount)) = amountText amount :=
    serializeValue_number _
  have hs : ∀ x, serializeValue (JsValue.string x) = quoteJSONString x := fun _ => rfl
  apply String.ext
  simp [stringify, String.intercalate, String.intercalate.go, h, hs, quoteJSONString,
    quoteChar, quoteMark]

theorem sendExpenseChecked_ok (d : Dom) (amount category : String)
    (ha : amount ≠ "") (hc : category ≠ "") :
    sendExpenseChecked d amount category =
      ⟨d, [HostCall.sendData ("\x7b\"action\":\"add_expense\",\"amount\":" ++
        amountText amount ++ ",\"category\":" ++ quoteJSONString category ++ "\x7d")],
        false⟩ := by
  unfold sendExpenseChecked sendData
  rw [stringify_expense]
  simp [ha, hc]

theorem sendExpenseChecked_alert (d : Dom) (amount category : String)
    (h : amount = "" ∨ category = "") :
    sendExpenseChecked d amount category =
      ⟨d, [HostCall.showAlert "Введите сумму и выберите категорию!"], false⟩ := by
  unfold sendExpenseChecked
  simp [h]

/-! ## The claims on the actions -/

/-- C2, as stated, fails: with the amount text `abc` and the category `food`, both
non-empty, the payload submitted has the amount `null`, not a number, so it is not the
payload the claim states. -/
theorem sendExpense_amount_null :
    parseFloat "abc" = JsNumber.nan ∧
      (sendExpense (fillIn samplePage [("amountInput", "abc"),
          ("categoryInput", "food")])).calls =
        [HostCall.sendData
          "\x7b\"action\":\"add_expense\",\"amount\":null,\"category\":\"food\"\x7d"] ∧
      (sendExpense (fillIn samplePage [("amountInput", "abc"),
          ("categoryInput", "food")])).calls ≠
        [HostCall.sendData (expensePayloadStated "abc" "food")] := by
  decide

/-- C2, amended: for every non-empty amount text and non-empty resolved category,
`sendExpense()` completes, shows no alert and submits exactly one payload: the JSON object
with action `add_expense`, amount the parsed value of the amount text when that is a finite
number and `null` otherwise, and category the resolved category string. -/
theorem sendExpense_submits (d : Dom) (amount category custom : String)
    (ha : valueOf d "amountInput" = some amount)
    (hc : valueOf d "categoryInput" = some category)
    (hcu : category = "__custom__" → valueOf d "customCategoryInput" = some custom)
    (hne : amount ≠ "") (hres : resolvedCategory category custom ≠ "") :
    sendExpense d =
      ⟨d, [HostCall.sendData ("\x7b\"action\":\"add_expense\",\"amount\":" ++
        (if (parseFloat amount).isFinite = true then numberToString (parseFloat amount)
          else "null") ++
        ",\"category\":" ++ quoteJSONString (resolvedCategory category custom) ++ "\x7d")],
        false⟩ := by
  unfold sendExpense
  simp only [ha, hc]
  unfold resolvedCategory at hres ⊢
  by_cases hs : category = "__custom__"
  · simp only [hs, if_true] at hres ⊢
    rw [hcu hs]
    simp only [hres, if_false]
    exact sendExpenseChecked_ok d amount (trim custom) hne hres
  · simp only [hs, if_false] at hres ⊢
    exact sendExpenseChecked_ok d amount category hne hres

/-- C2, amended, instance: amount `12.5` and category `food` submit exactly
`{"action":"add_expense","amount":12.5,"category":"food"}`. -/
theorem sendExpense_submits_witness :
    (sendExpense (fillIn samplePage [("amountInput", "12.5"),
        ("categoryInput", "food")])).calls =
      [HostCall.sendData
        "\x7b\"action\":\"add_expense\",\"amount\":12.5,\"category\":\"food\"\x7d"] := by
  rw [sendExpense_submits (fillIn samplePage [("amountInput", "12.5"),
    ("categoryInput", "food")]) "12.5" "food" "" (by decide) (by decide) (by decide)
    (by decide) (by decide)]
  decide

/-- C5: for every amount text, when the hidden category value is the sentinel and the
custom-category text is empty after trimming, `sendExpense()` shows exactly one alert,
"Введите название категории!", and submits nothing. -/
theorem sendExpense_custom_empty (d : Dom) (amount custom : String)
    (ha : valueOf d "amountInput" = some amount)
    (hc : valueOf d "categoryInput" = some "__custom__")
    (hcu : valueOf d "customCategoryInput" = some custom)
    (hempty : trim custom = "") :
    sendExpense d = ⟨d, [HostCall.showAlert "Введите название категории!"], false⟩ := by
  unfold sendExpense
  simp only [ha, hc, hcu, hempty, if_true]

/-- C5, instance: the sentinel with a whitespace-only custom text and the amount `10`. -/
theorem sendExpense_custom_empty_witness :
    (sendExpense (fillIn samplePage [("amountInput", "10"), ("categoryInput", "__custom__"),
        ("customCategoryInput", "  ")])).calls =
      [HostCall.showAlert "Введите название категории!"] := by
  rw [sendExpense_custom_empty (fillIn samplePage [("amountInput", "10"),
    ("categoryInput", "__custom__"), ("customCategoryInput", "  ")]) "10" "  "
    (by decide) (by decide) (by decide) (by decide)]

/-- C6: whenever the amount text is empty or the resolved category is empty, and the case
of the sentinel with an empty custom text does not apply, `sendExpense()` shows exactly one
alert, "Введите сумму и выберите категорию!", and submits nothing. -/
theorem sendExpense_missing_field (d : Dom) (amount category custom : String)
    (ha : valueOf d "amountInput" = some amount)
    (hc : valueOf d "categoryInput" = some category)
    (hcu : category = "__custom__" → valueOf d "customCategoryInput" = some custom)
    (hmiss : amount = "" ∨ resolvedCategory category custom = "")
    (hnot : ¬ (category = "__custom__" ∧ trim custom = "")) :
    sendExpense d =
      ⟨d, [HostCall.showAlert "Введите сумму и выберите категорию!"], false⟩ := by
  unfold sendExpense
  simp only [ha, hc]
  unfold resolvedCategory at hmiss
  by_cases hs : category = "__custom__"
  · have hcust : trim custom ≠ "" := fun h => hnot ⟨hs, h⟩
    simp only [hs, if_true] at hmiss ⊢
    rw [hcu hs]
    simp only [hcust, if_false]
    exact sendExpenseChecked_alert d amount (trim custom) hmiss
  · simp only [hs, if_false] at hmiss ⊢
    exact sendExpenseChecked_alert d amount category hmiss

/-- C6, instance: the amount `10` with no category set gives the alert and no submission. -/
theorem sendExpense_missing_field_witness :
    (sendExpense (fillIn samplePage [("amountInput", "10")])).calls =
      [HostCall.showAlert "Введите сумму и выберите категорию!"] := by
  rw [sendExpense_missing_field (fillIn samplePage [("amountInput", "10")]) "10" "" ""
    (by decide) (by decide) (by decide) (by decide) (by decide)]

/-- C7: `sendAction("stop_userbot")` only shows the confirm dialog; its callback submits
`{"action":"stop_userbot"}` exactly when it is invoked with `confirmed = true`.  For every
other action name `a`, `sendAction(a)` shows no dialog and submits exactly one payload,
`{"action":a}`, as `sendAction("other")` submits `{"action":"other"}`. -/
theorem sendAction_confirm_or_submit (d : Dom) (a : String) (confirmed : Bool) :
    sendAction d "stop_userbot" =
      ⟨d, [HostCall.showConfirm "Вы точно хотите отключить UserBot?"
        (Callback.confirmSend "stop_userbot")], false⟩ ∧
    Callback.invoke d (Callback.confirmSend "stop_userbot") confirmed =
      ⟨d, if confirmed = true then
        [HostCall.sendData "\x7b\"action\":\"stop_userbot\"\x7d"] else [], false⟩ ∧
    sendAction d a =
      (if a = "stop_userbot" then
        ⟨d, [HostCall.showConfirm "Вы точно хотите отключить UserBot?"
          (Callback.confirmSend "stop_userbot")], false⟩
      else
        ⟨d, [HostCall.sendData ("\x7b\"action\":" ++ quoteJSONString a ++ "\x7d")], false⟩) ∧
    sendAction d "other" = ⟨d, [HostCall.sendData "\x7b\"action\":\"other\"\x7d"], false⟩ := by
  have hstop : stringify [("action", JsValue.string "stop_userbot")] =
      "\x7b\"action\":\"stop_userbot\"\x7d" := by decide
  have hother : stringify [("action", JsValue.string "other")] =
      "\x7b\"action\":\"other\"\x7d" := by decide
  refine ⟨rfl, ?_, ?_, ?_⟩
  · cases confirmed
    · rfl
    · simp only [Callback.invoke, sendData, hstop, if_true]
  · by_cases h : a = "stop_userbot"
    · subst h; rfl
    · simp only [sendAction, sendData, h, if_false, stringify_action]
  · simp only [sendAction, sendData, hother]
    rfl

/-- C8: each of `sendTask()`, `sendHabit()` and `saveCity()` completes without an alert and
submits a payload exactly when the trimmed text of its input is non-empty: then exactly
one payload, carrying the trimmed text (and for `sendHabit` the time value as it is, empty
or not); when the text is empty or whitespace-only nothing is submitted. -/
theorem silent_abort_or_submit (d : Dom) (task habit time city : String)
    (h1 : valueOf d "taskInput" = some task)
    (h2 : valueOf d "habitInput" = some habit)
    (h3 : valueOf d "habitTimeInput" = some time)
    (h4 : valueOf d "cityInput" = some city) :
    sendTask d =
      ⟨d, if trim task = "" then [] else
        [HostCall.sendData ("\x7b\"action\":\"add_task\",\"text\":" ++
          quoteJSONString (trim task) ++ "\x7d")], false⟩ ∧
    sendHabit d =
      ⟨d, if trim habit = "" then [] else
        [HostCall.sendData ("\x7b\"action\":\"add_habit\",\"text\":" ++
          quoteJSONString (trim habit) ++ ",\"time\":" ++ quoteJSONString time ++ "\x7d")],
        false⟩ ∧
    saveCity d =
      ⟨d, if trim city = "" then [] else
        [HostCall.sendData ("\x7b\"action\":\"update_city\",\"city\":" ++
          quoteJSONString (trim city) ++ "\x7d")], false⟩ := by
  refine ⟨?_, ?_, ?_⟩
  · unfold sendTask
    simp only [h1]
    by_cases h : trim task = ""
    · simp only [h, if_true]
    · simp only [h, if_false, sendData, stringify_task]
  · unfold sendHabit
    simp only [h2, h3]
    by_cases h : trim habit = ""
    · simp only [h, if_true]
    · simp only [h, if_false, sendData, stringify_habit]
  · unfold saveCity
    simp only [h4]
    by_cases h : trim city = ""
    · simp only [h, if_true]
    · simp only [h, if_false, sendData, stringify_city]

/-- C8, instance: a whitespace-only task submits nothing; the habit ` run ` with an empty
time and the city `Omsk` are submitted trimmed. -/
theorem silent_abort_or_submit_witness :
    (sendTask (fillIn samplePage [("taskInput", " \t "), ("habitInput", " run "),
        ("cityInput", "Omsk")])).calls = [] ∧
    (sendHabit (fillIn samplePage [("taskInput", " \t "), ("habitInput", " run "),
        ("cityInput", "Omsk")])).calls =
      [HostCall.sendData "\x7b\"action\":\"add_habit\",\"text\":\"run\",\"time\":\"\"\x7d"] ∧
    (saveCity (fillIn samplePage [("taskInput", " \t "), ("habitInput", " run "),
        ("cityInput", "Omsk")])).calls =
      [HostCall.sendData "\x7b\"action\":\"update_city\",\"city\":\"Omsk\"\x7d"] := by
  have h := silent_abort_or_submit (fillIn samplePage [("taskInput", " \t "),
    ("habitInput", " run "), ("cityInput", "Omsk")]) " \t " " run " "" "Omsk"
    (by decide) (by decide) (by decide) (by decide)
  rw [h.1, h.2.1, h.2.2]
  decide

end BotHelp
